import Mathlib

/-!
Shallow embedding of the terraform-provider-bigippg core: the field
validators of `bigippg/validators.go` and the session factory
(`Config.Client` / `Config.validateConnection`).

Modelling conventions:
  * Go errors produced by `fmt.Errorf` become constructors of the
    inductive `GoErr`, each carrying the format arguments of the
    corresponding call site.
  * The dynamic `interface{}` argument of a validator together with its
    type switch (`*schema.Set`, `[]string`, `*[]string`, `string`,
    default) becomes the sum type `SchemaValue`.
  * Go regular expressions (RE2, no Unicode flags) are translated to
    executable `Bool` matchers on `List Char`; each matcher's comment
    quotes the regex it embeds.  RE2 classes used here are ASCII:
    `\w = [0-9A-Za-z_]`, `\d = [0-9]`, `\s = [\t\n\f\r ]`,
    `.` = any character except newline.
  * The external go-bigip client calls made by the session factory are
    an oracle `BigIPDevice` fixing the outcome of each call; the factory
    additionally records which external calls it made and which warnings
    it logged, so that "no network call" and "a warning is logged" are
    statable.
-/

namespace BigIPPG

/-- Go error values produced by the code under verification.  Each
constructor corresponds to one `fmt.Errorf` call site and carries the
values interpolated into the format string. -/
inductive GoErr where
  /-- "Unknown type %v in <fname>" (the default case of each validator's
  type switch); carries the dynamic type name and the validator name
  baked into the format string. -/
  | unknownType (typeName : String) (fname : String)
  /-- "%q can only contain %v" from `validateSetValues`; carries the field
  name and the listed elements of the input set. -/
  | canOnlyContain (field : String) (listed : List String)
  /-- "%q must be one of %v" from `validateStringValue`. -/
  | mustBeOneOf (field : String) (values : List String)
  /-- "%q must match /Partition/Name and contain letters, numbers or
  [._-:]. e.g. /Common/my-pool" from `validateF5Name`. -/
  | f5NameErr (field : String)
  /-- "%q must match /Partition/Name or /Partition/Directory/Name ..."
  from `validateF5NameWithDirectory`. -/
  | f5NameWithDirectoryErr (field : String)
  /-- "%q name should not start with `/`, e.g Common [or] test-partition
  are valid " from `validatePartitionName`. -/
  | partitionNameErr (field : String)
  /-- "%q must match /Partition/Node_Name:Port and contain letters,
  numbers or [:._-]. e.g. /Common/node1:80" from `validatePoolMemberName`
  (the branch taken when the value has at least two colons). -/
  | poolMemberPathErr (field : String)
  /-- "%q must match Node-address:Port and Node Address is IP/FQDN.
  e.g. 1.1.1.1:80/www.google.com:80" from `validatePoolMemberName`
  (the branch taken when the value has fewer than two colons). -/
  | poolMemberHostErr (field : String)
  /-- "%q must match as enabled or disabled" from
  `validateEnabledDisabled`. -/
  | enabledDisabledErr (field : String)
  /-- "%q must match as required, preferred, or disabled" from
  `validateReqPrefDisabled`. -/
  | reqPrefDisabledErr (field : String)
  /-- "%q must match as string, ip, or integer" from
  `validateDataGroupType`. -/
  | dataGroupTypeErr (field : String)
  /-- "%q must match as Utility (or) Regkey" from
  `validatePoolLicenseType`. -/
  | poolLicenseErr (field : String)
  /-- "%q must match as MANAGED/UNMANAGED/UNREACHABLE" from
  `validateAssignmentType`. -/
  | assignmentTypeErr (field : String)
  /-- "BigIP provider requires address, username and password" from
  `Config.Client`. -/
  | missingRequiredFields
  /-- An arbitrary error produced by the external go-bigip library
  (token login failure, failed SelfIPs request, ...). -/
  | ext (msg : String)
deriving DecidableEq

/-- The dynamic `interface{}` value handed to a validator, restricted to
the shapes its type switch recognises: `*schema.Set`, `[]string`,
`*[]string`, `string`, and any other dynamic type (carrying the type
name that `reflect.TypeOf` would report). -/
inductive SchemaValue where
  | set (s : Finset String)
  | strSlice (l : List String)
  | strSlicePtr (l : List String)
  | str (s : String)
  | other (typeName : String)
deriving DecidableEq

/-- Modelled from the spec: `setToStringSlice` is defined elsewhere in
this repository (not among the given source files); per the spec the
set input is "order-insensitive" and is reduced "to an ordered sequence
of strings".  Modelled as listing the set's elements in sorted order. -/
def setToStringSlice (s : Finset String) : List String :=
  s.sort (· ≤ ·)

/-- The shared normalisation step of every validator's type switch:
reduce the dynamic value to a list of strings, or report the
"Unknown type %v in <fname>" error of the default case.  `fname` is the
validator name literally baked into that call site's format string. -/
def normalizeValue (fname : String) (value : SchemaValue) :
    List String × List GoErr :=
  match value with
  | SchemaValue.set s => (setToStringSlice s, [])
  | SchemaValue.strSlice l => (l, [])
  | SchemaValue.strSlicePtr l => (l, [])
  | SchemaValue.str s => ([s], [])
  | SchemaValue.other t => ([], [GoErr.unknownType t fname])

/- ----------------------------------------------------------------
   Character classes of the RE2 regexes (ASCII, no Unicode flags).
   ---------------------------------------------------------------- -/

/-- RE2 `\w`, i.e. `[0-9A-Za-z_]`. -/
def isWordChar (c : Char) : Bool :=
  c.isAlphanum || c == '_'

/-- The class `[\w_\-.]` (partition segments, pool-member hosts). -/
def isPartChar (c : Char) : Bool :=
  isWordChar c || c == '-' || c == '.'

/-- The class `[\w_\-.:]` (name segments, which additionally allow a
colon). -/
def isNameChar (c : Char) : Bool :=
  isPartChar c || c == ':'

/-- RE2 `\s`, i.e. `[\t\n\f\r ]`. -/
def isSpaceRE2 (c : Char) : Bool :=
  c == '\t' || c == '\n' || c == '\x0c' || c == '\r' || c == ' '

/- ----------------------------------------------------------------
   Regex matchers.
   ---------------------------------------------------------------- -/

/-- Two slash-led segments: `/X/Y` with `X` a non-empty run of `cls1`
characters and `Y` a non-empty run of `cls2` characters.  For the
classes used here (which never contain `/`) the separating slash is
necessarily the first slash after the leading one, so the split is
computed with `takeWhile`/`dropWhile`: the head of the `dropWhile`
remainder must be that separating slash and the rest of it is `Y`. -/
def seg2 (cls1 cls2 : Char → Bool) : List Char → Bool
  | [] => false
  | c :: rest =>
      (c == '/') &&
      !(rest.takeWhile (fun x => x != '/')).isEmpty &&
      (rest.takeWhile (fun x => x != '/')).all cls1 &&
      ((rest.dropWhile (fun x => x != '/')).head? == some '/') &&
      !((rest.dropWhile (fun x => x != '/')).drop 1).isEmpty &&
      ((rest.dropWhile (fun x => x != '/')).drop 1).all cls2

/-- Three slash-led segments `/X/Y/Z`: a leading slash, a non-empty run
of `cls1` characters up to the next slash, and then two further
segments, which is exactly `seg2 cls2 cls3` on the remainder (the
remainder starts with the separating slash). -/
def seg3 (cls1 cls2 cls3 : Char → Bool) : List Char → Bool
  | [] => false
  | c :: rest =>
      (c == '/') &&
      !(rest.takeWhile (fun x => x != '/')).isEmpty &&
      (rest.takeWhile (fun x => x != '/')).all cls1 &&
      seg2 cls2 cls3 (rest.dropWhile (fun x => x != '/'))

/-- Whole-string match of `^/[\w_\-.]+/[\w_\-.:]+$` (from
`validateF5Name`, line 61 of validators.go). -/
def f5NameMatch (s : String) : Bool :=
  seg2 isPartChar isNameChar s.data

/-- Whole-string match of
`(^/[\w_\-.]+/[\w_\-.:]+/[\w_\-.:]+$)|(^/[\w_\-.]+/[\w_\-.:]+$)`
(from `validateF5NameWithDirectory`, line 89 of validators.go). -/
def f5NameWithDirMatch (s : String) : Bool :=
  seg3 isPartChar isNameChar isNameChar s.data || f5NameMatch s

/-- The body of `^[^/][^\s]+$`: one character other than `/`, followed
by at least one character, none of which is RE2 whitespace. -/
def partitionChars : List Char → Bool
  | [] => false
  | c :: rest => c != '/' && !rest.isEmpty && rest.all (fun x => !isSpaceRE2 x)

/-- Whole-string match of `^[^/][^\s]+$` (from `validatePartitionName`,
line 117 of validators.go).  (In RE2 a negated class also matches the
newline character.) -/
def partitionNameMatch (s : String) : Bool :=
  partitionChars s.data

/-- The suffix `.\d+` of the pool-member path regex, after the
`[\w_\-.:]+` part: one arbitrary non-newline character (the regex has an
unescaped dot) followed by a non-empty run of digits. -/
def anyThenDigits : List Char → Bool
  | [] => false
  | a :: d => a != '\n' && !d.isEmpty && d.all Char.isDigit

/-- The part of the pool-member path regex after `/Partition/`:
some split into a non-empty `[\w_\-.:]+` prefix and an `anyThenDigits`
suffix (the split point is searched for, as the regex's backtracking
would). -/
def pathPortTail (m : List Char) : Bool :=
  (List.range m.length).any (fun j =>
    (m.take (j + 1)).all isNameChar && anyThenDigits (m.drop (j + 1)))

/-- The body of `^\/[\w_\-.]+\/[\w_\-.:]+.\d+$`. -/
def poolMemberPathChars : List Char → Bool
  | [] => false
  | c :: rest =>
      (c == '/') &&
      !(rest.takeWhile (fun x => x != '/')).isEmpty &&
      (rest.takeWhile (fun x => x != '/')).all isPartChar &&
      ((rest.dropWhile (fun x => x != '/')).head? == some '/') &&
      pathPortTail ((rest.dropWhile (fun x => x != '/')).drop 1)

/-- Whole-string match of `^\/[\w_\-.]+\/[\w_\-.:]+.\d+$` (from
`validatePoolMemberName`, line 146 of validators.go; the branch for
values with at least two colons). -/
def poolMemberPathMatch (s : String) : Bool :=
  poolMemberPathChars s.data

/-- Whole-string match of `^[\w_\-.]+:\d+$` (from
`validatePoolMemberName`, line 151 of validators.go; the branch for
values with fewer than two colons).  The head class excludes `:` and
the digit suffix excludes `:`, so the separating colon is the first
colon of the string. -/
def poolMemberHostMatch (s : String) : Bool :=
  !(s.data.takeWhile (fun c => c != ':')).isEmpty &&
  (s.data.takeWhile (fun c => c != ':')).all isPartChar &&
  ((s.data.dropWhile (fun c => c != ':')).head? == some ':') &&
  !((s.data.dropWhile (fun c => c != ':')).drop 1).isEmpty &&
  ((s.data.dropWhile (fun c => c != ':')).drop 1).all Char.isDigit

/-- `strings.Count(v, ":")`: the number of colons in the string. -/
def countColons (s : String) : Nat :=
  (s.data.filter (fun c => c == ':')).length

/-- Whole-string match of `^enabled$|^disabled$` (from
`validateEnabledDisabled`, line 187 of validators.go).  Both
alternatives are anchored on both sides, so the regex matches exactly
the two literals. -/
def enabledDisabledMatch (s : String) : Bool :=
  s == "enabled" || s == "disabled"

/-- Whole-string match of `^required$|^preferred$|^disabled$` (from
`validateReqPrefDisabled`, line 211 of validators.go). -/
def reqPrefDisabledMatch (s : String) : Bool :=
  s == "required" || s == "preferred" || s == "disabled"

/-- Whole-string match of `^string$|^ip$|^integer$` (from
`validateDataGroupType`, line 235 of validators.go). -/
def dataGroupTypeMatch (s : String) : Bool :=
  s == "string" || s == "ip" || s == "integer"

/-- Split a character list at every newline: the line structure that the
RE2 `m` (multi-line) flag anchors `^`/`$` to. -/
def splitLines : List Char → List (List Char)
  | [] => [[]]
  | c :: rest =>
      if c = '\n' then [] :: splitLines rest
      else
        match splitLines rest with
        | [] => [[c]]
        | h :: t => (c :: h) :: t

/-- The RE2 `i` flag on a literal pattern character: Go's regexp
compiles a case-folded literal rune into the class of code points in
its Unicode *simple case folding* orbit (`unicode.SimpleFold`).  For an
ASCII lowercase pattern character `p` that orbit is the ASCII case pair
of `p`, plus U+212A KELVIN SIGN when `p` is `k` and U+017F LATIN SMALL
LETTER LONG S when `p` is `s` — the only non-ASCII code points whose
simple fold reaches an ASCII letter. -/
def foldCharMatch (p c : Char) : Bool :=
  c == p || c == Char.toUpper p ||
  (p == 'k' && c == '\u212A') || (p == 's' && c == '\u017F')

/-- A line matches a case-folded literal pattern exactly when it has the
same length and each character lies in the fold orbit of the
corresponding pattern character. -/
def lineEqFold : List Char → List Char → Bool
  | [], [] => true
  | p :: ps, c :: cs => foldCharMatch p c && lineEqFold ps cs
  | _, _ => false

/-- Match of `(?mi)^Utility$|^regkey$` (from `validatePoolLicenseType`,
line 257 of validators.go).  The `m` flag makes `^`/`$` match at line
boundaries and the `i` flag makes the literals case-folded, so the
regex matches anywhere in the string exactly when some
newline-delimited line equals `utility` or `regkey` up to simple case
folding. -/
def poolLicenseMatch (s : String) : Bool :=
  (splitLines s.data).any (fun l =>
    lineEqFold (("utility").data) l || lineEqFold (("regkey").data) l)

/-- Match of `(?mi)^MANAGED$|^UNMANAGED$|^UNREACHABLE$` (from
`validateAssignmentType`, line 279 of validators.go), with the same
multi-line, case-folded reading as `poolLicenseMatch` (these literals
contain no `k` or `s`, so their fold orbits are the ASCII case
pairs). -/
def assignmentTypeMatch (s : String) : Bool :=
  (splitLines s.data).any (fun l =>
    lineEqFold (("managed").data) l || lineEqFold (("unmanaged").data) l ||
    lineEqFold (("unreachable").data) l)

/- ----------------------------------------------------------------
   The validators.
   ---------------------------------------------------------------- -/

/-- `validateSetValues(valid)` applied to an input set: one error when
the intersection of the allowed set with the input has fewer elements
than the input (i.e. some element of the input is outside the allowed
set); the error lists the input set (`value.(*schema.Set).List()`). -/
def validateSetValues (valid : Finset String) (input : Finset String)
    (field : String) : List String × List GoErr :=
  ([],
   if (valid ∩ input).card != input.card then
     [GoErr.canOnlyContain field (setToStringSlice input)]
   else [])

/-- `validateStringValue(values)` applied to a string: no error when the
string equals one of the given literals, otherwise the
"must be one of" error. -/
def validateStringValue (values : List String) (value : String)
    (field : String) : List String × List GoErr :=
  ([],
   if values.any (fun v => v == value) then []
   else [GoErr.mustBeOneOf field values])

/-- `validateF5Name`: normalise, then one `f5NameErr` per value that
fails `^/[\w_\-.]+/[\w_\-.:]+$`. -/
def validateF5Name (value : SchemaValue) (field : String) :
    List String × List GoErr :=
  let vs := normalizeValue ("validateF5Name") value
  ([], vs.2 ++ vs.1.filterMap (fun v =>
    if f5NameMatch v then none else some (GoErr.f5NameErr field)))

/-- `validateF5NameWithDirectory`: normalise, then one error per value
failing the two- or three-segment path regex.  (Its type-switch default
message also says "validateF5Name", as in the source.) -/
def validateF5NameWithDirectory (value : SchemaValue) (field : String) :
    List String × List GoErr :=
  let vs := normalizeValue ("validateF5Name") value
  ([], vs.2 ++ vs.1.filterMap (fun v =>
    if f5NameWithDirMatch v then none
    else some (GoErr.f5NameWithDirectoryErr field)))

/-- `validatePartitionName`: normalise, then one error per value failing
`^[^/][^\s]+$`. -/
def validatePartitionName (value : SchemaValue) (field : String) :
    List String × List GoErr :=
  let vs := normalizeValue ("validatePartitionName") value
  ([], vs.2 ++ vs.1.filterMap (fun v =>
    if partitionNameMatch v then none
    else some (GoErr.partitionNameErr field)))

/-- `validatePoolMemberName`: normalise, then for each value, if it
contains at least two colons check it against the /Partition/Node path
regex, otherwise against the host:port regex
(`strings.Count(v, ":") >= 2` selects the branch). -/
def validatePoolMemberName (value : SchemaValue) (field : String) :
    List String × List GoErr :=
  let vs := normalizeValue ("validatePoolMemberName") value
  ([], vs.2 ++ vs.1.filterMap (fun v =>
    if 2 ≤ countColons v then
      if poolMemberPathMatch v then none
      else some (GoErr.poolMemberPathErr field)
    else
      if poolMemberHostMatch v then none
      else some (GoErr.poolMemberHostErr field)))

/-- `validateEnabledDisabled`: normalise, then one error per value
failing `^enabled$|^disabled$`. -/
def validateEnabledDisabled (value : SchemaValue) (field : String) :
    List String × List GoErr :=
  let vs := normalizeValue ("validateEnabledDisabled") value
  ([], vs.2 ++ vs.1.filterMap (fun v =>
    if enabledDisabledMatch v then none
    else some (GoErr.enabledDisabledErr field)))

/-- `validateReqPrefDisabled`: normalise, then one error per value
failing `^required$|^preferred$|^disabled$`. -/
def validateReqPrefDisabled (value : SchemaValue) (field : String) :
    List String × List GoErr :=
  let vs := normalizeValue ("validateReqPrefDisabled") value
  ([], vs.2 ++ vs.1.filterMap (fun v =>
    if reqPrefDisabledMatch v then none
    else some (GoErr.reqPrefDisabledErr field)))

/-- `validateDataGroupType`: normalise, then one error per value failing
`^string$|^ip$|^integer$`. -/
def validateDataGroupType (value : SchemaValue) (field : String) :
    List String × List GoErr :=
  let vs := normalizeValue ("validateDataGroupType") value
  ([], vs.2 ++ vs.1.filterMap (fun v =>
    if dataGroupTypeMatch v then none
    else some (GoErr.dataGroupTypeErr field)))

/-- `validatePoolLicenseType`: normalise, then one error per value
failing `(?mi)^Utility$|^regkey$`. -/
def validatePoolLicenseType (value : SchemaValue) (field : String) :
    List String × List GoErr :=
  let vs := normalizeValue ("validatePoolLicenseType") value
  ([], vs.2 ++ vs.1.filterMap (fun v =>
    if poolLicenseMatch v then none
    else some (GoErr.poolLicenseErr field)))

/-- `validateAssignmentType`: normalise, then one error per value
failing `(?mi)^MANAGED$|^UNMANAGED$|^UNREACHABLE$`.  (Its type-switch
default message says "validatePoolLicenseType", as in the source.) -/
def validateAssignmentType (value : SchemaValue) (field : String) :
    List String × List GoErr :=
  let vs := normalizeValue ("validatePoolLicenseType") value
  ([], vs.2 ++ vs.1.filterMap (fun v =>
    if assignmentTypeMatch v then none
    else some (GoErr.assignmentTypeErr field)))

/- ----------------------------------------------------------------
   The session factory (src/unnamed/part_000).
   ---------------------------------------------------------------- -/

/-- The `Config` struct: connection parameters for the provider. -/
structure Config where
  Address : String
  Port : String
  Username : String
  Password : String
  LoginReference : String
  /-- `*bigip.ConfigOptions`, opaque to this code: only passed through
  to the external constructors. -/
  ConfigOptions : Option Unit
deriving DecidableEq

/-- An opaque `*bigip.BigIP` client handle produced by the external
library. -/
abbrev Handle : Type := Nat

/-- The external calls the factory can make. -/
inductive NetCall where
  /-- `bigip.NewTokenSession(...)` -/
  | tokenSession
  /-- `bigip.NewSession(...)` -/
  | basicSession
  /-- `client.SelfIPs()` -/
  | selfIPs
deriving DecidableEq

/-- Oracle fixing the outcome of each external go-bigip call the factory
may make: the result of `bigip.NewTokenSession`, the handle returned by
`bigip.NewSession` (which has no error path), and the result of
`client.SelfIPs()`.  A `SelfIPs` outcome of `Except.ok none` models a
`nil` result pointer with a `nil` error (the "empty result" case);
`Except.ok (some l)` models a non-nil list of self-IPs. -/
structure BigIPDevice where
  tokenSession : Except GoErr Handle
  basicSession : Handle
  selfIPs : Except GoErr (Option (List String))

/-- The log line `[WARN] Could not validate connection to BigIP`. -/
def warnCouldNotValidate : String :=
  "[WARN] Could not validate connection to BigIP"

/-- `(c *Config) validateConnection(client)`: request the device's
self-IP list; an error is returned verbatim, a nil result logs the
warning and returns nil, a non-nil result returns nil.  The second
component collects the warning lines logged ([ERROR]-level log lines of
the error path are not warnings and are not collected). -/
def validateConnection (dev : BigIPDevice) : Option GoErr × List String :=
  match dev.selfIPs with
  | Except.error e => (some e, [])
  | Except.ok none => (none, [warnCouldNotValidate])
  | Except.ok (some _) => (none, [])

/-- The value returned by `Config.Client`, together with the observable
trace: field order is the returned handle (`nil` = `none`), the returned
error, the external calls made, and the warnings logged. -/
structure ClientResult where
  handle : Option Handle
  error : Option GoErr
  calls : List NetCall
  warnings : List String
deriving DecidableEq

/-- `(c *Config) Client()`: if address, username and password are all
non-empty, obtain a client (token session when a login reference is
present, else a basic session), run the liveness check, and return the
handle on success or the error on failure; otherwise fail immediately
with the missing-required-fields error and make no external call. -/
def Config.Client (c : Config) (dev : BigIPDevice) : ClientResult :=
  if c.Address != "" && c.Username != "" && c.Password != "" then
    if c.LoginReference != "" then
      match dev.tokenSession with
      | Except.error e =>
          ⟨none, some e, [NetCall.tokenSession], []⟩
      | Except.ok client =>
          match validateConnection dev with
          | (none, ws) =>
              ⟨some client, none, [NetCall.tokenSession, NetCall.selfIPs], ws⟩
          | (some e, ws) =>
              ⟨none, some e, [NetCall.tokenSession, NetCall.selfIPs], ws⟩
    else
      let client := dev.basicSession
      match validateConnection dev with
      | (none, ws) =>
          ⟨some client, none, [NetCall.basicSession, NetCall.selfIPs], ws⟩
      | (some e, ws) =>
          ⟨none, some e, [NetCall.basicSession, NetCall.selfIPs], ws⟩
  else
    ⟨none, some GoErr.missingRequiredFields, [], []⟩

/- ----------------------------------------------------------------
   Spec-side predicates (written from the claims' words, for
   comparison with the code-side matchers).
   ---------------------------------------------------------------- -/

/-- The partition-name rule as claim C4 states it: the string does not
start with `/` and contains no whitespace character. -/
def specPartitionNameOK (s : String) : Bool :=
  (match s.data with
   | '/' :: _ => false
   | _ => true) && s.data.all (fun c => !isSpaceRE2 c)

/-- The character class as claim C5 states it for both segments:
letters, digits, and `. _ - :`. -/
def specF5Char (c : Char) : Bool :=
  c.isAlpha || c.isDigit || c == '.' || c == '_' || c == '-' || c == ':'

/-- The F5 object path rule as claim C5 states it: the form
`/Partition/Name` with both segments non-empty and drawn only from
`specF5Char` (which excludes `/`, so the separating slash is the first
slash of the remainder). -/
def specF5NameOK (s : String) : Bool :=
  seg2 specF5Char specF5Char s.data

/-- The pool-license rule as claim C6 states it: the whole string equals
`Utility` or `regkey` under case-insensitive comparison (modelled with
the same simple case folding the regex engine applies). -/
def specPoolLicenseOK (s : String) : Bool :=
  lineEqFold (("utility").data) s.data || lineEqFold (("regkey").data) s.data

/- ----------------------------------------------------------------
   Helper lemmas.
   ---------------------------------------------------------------- -/

/-- Computing `takeWhile`/`dropWhile` on a list split at the first
element falsifying the predicate. -/
theorem takeWhile_dropWhile_split {q : Char → Bool} (l : List Char)
    (x : Char) (r : List Char) (hl : ∀ c ∈ l, q c = true)
    (hx : q x = false) :
    (l ++ x :: r).takeWhile q = l ∧ (l ++ x :: r).dropWhile q = x :: r := by
  induction l with
  | nil => simp [List.takeWhile, List.dropWhile, hx]
  | cons a as ih =>
      have ha : q a = true := hl a (by simp)
      have h2 : ∀ c ∈ as, q c = true := fun c hc => hl c (by simp [hc])
      obtain ⟨t, d⟩ := ih h2
      constructor
      · simpa [List.takeWhile_cons, ha] using t
      · simpa [List.dropWhile_cons, ha] using d

/-- The code-side class `[\w_\-.]` spelt out. -/
theorem isPartChar_iff (c : Char) :
    isPartChar c = true ↔
      (c.isAlpha = true ∨ c.isDigit = true ∨ c = '.' ∨ c = '_' ∨ c = '-') := by
  simp only [isPartChar, isWordChar, Char.isAlphanum, Bool.or_eq_true,
    beq_iff_eq]
  tauto

/-- The code-side class `[\w_\-.:]` spelt out. -/
theorem isNameChar_iff (c : Char) :
    isNameChar c = true ↔
      (c.isAlpha = true ∨ c.isDigit = true ∨ c = '.' ∨ c = '_' ∨ c = '-' ∨
        c = ':') := by
  simp only [isNameChar, isPartChar, isWordChar, Char.isAlphanum,
    Bool.or_eq_true, beq_iff_eq]
  tauto

/-- A character of a class that excludes `x` is `!=`-distinct from
`x`. -/
theorem cls_bne_of_notMem {cls : Char → Bool} {x : Char}
    (h : cls x = false) {c : Char} (hc : cls c = true) : (c != x) = true := by
  rw [bne_iff_ne]
  intro he
  rw [he, h] at hc
  exact absurd hc (by simp)

/-- `seg2 cls1 cls2` characterised as a decomposition into two
non-empty slash-separated segments, provided neither class contains the
slash itself. -/
theorem seg2_iff {cls1 cls2 : Char → Bool} (h1 : cls1 '/' = false)
    (_h2 : cls2 '/' = false) (l : List Char) :
    seg2 cls1 cls2 l = true ↔
      ∃ p n : List Char, l = '/' :: (p ++ '/' :: n) ∧ p ≠ [] ∧
        (∀ c ∈ p, cls1 c = true) ∧ n ≠ [] ∧ (∀ c ∈ n, cls2 c = true) := by
  constructor
  · intro hm
    cases l with
    | nil => simp [seg2] at hm
    | cons c rest =>
        simp only [seg2, Bool.and_eq_true, beq_iff_eq, Bool.not_eq_true',
          List.all_eq_true] at hm
        obtain ⟨⟨⟨⟨⟨hc, hp0⟩, hpall⟩, hhd⟩, hn0⟩, hnall⟩ := hm
        subst hc
        cases hdw : rest.dropWhile (fun x => x != '/') with
        | nil => rw [hdw] at hhd; exact absurd hhd (by simp)
        | cons y t =>
            rw [hdw] at hhd hn0 hnall
            have hy : y = '/' := by simpa using hhd
            subst hy
            refine ⟨rest.takeWhile (fun x => x != '/'), t, ?_, ?_, hpall, ?_, ?_⟩
            · have := List.takeWhile_append_dropWhile
                (p := fun x => x != '/') (l := rest)
              rw [hdw] at this
              rw [this]
            · intro he
              rw [he] at hp0
              exact absurd hp0 (by simp)
            · intro he
              rw [he] at hn0
              exact absurd hn0 (by simp)
            · simpa using hnall
  · rintro ⟨p, n, hl, hp0, hpc, hn0, hnc⟩
    subst hl
    have hq : ∀ c ∈ p, (fun x => x != '/') c = true :=
      fun c hc => cls_bne_of_notMem h1 (hpc c hc)
    obtain ⟨ht, hdw⟩ :=
      takeWhile_dropWhile_split (q := fun x => x != '/') p '/' n hq (by decide)
    have e1 : p.isEmpty = false := by
      cases p with
      | nil => exact absurd rfl hp0
      | cons a as => rfl
    have e2 : n.isEmpty = false := by
      cases n with
      | nil => exact absurd rfl hn0
      | cons a as => rfl
    have a1 : p.all cls1 = true := List.all_eq_true.mpr hpc
    have a2 : n.all cls2 = true := List.all_eq_true.mpr hnc
    simp [seg2, ht, hdw, e1, e2, a1, a2]

/-- `f5NameMatch` (the regex `^/[\w_\-.]+/[\w_\-.:]+$`) characterised as
a decomposition into two non-empty slash-separated segments. -/
theorem f5NameMatch_iff (s : String) :
    f5NameMatch s = true ↔
      ∃ p n : List Char, s.data = '/' :: (p ++ '/' :: n) ∧ p ≠ [] ∧
        (∀ c ∈ p, isPartChar c = true) ∧ n ≠ [] ∧
        (∀ c ∈ n, isNameChar c = true) := by
  rw [f5NameMatch]
  exact seg2_iff (by decide) (by decide) s.data

/- ----------------------------------------------------------------
   Claim C1.
   ---------------------------------------------------------------- -/

/-- Claim C1 (code_bug evaluation): the pool member validator accepts
`1.1.1.1:80` and rejects `1.1.1.1` and `/Common/node1` as the claim
says, but it also rejects `/Common/node1:80` — the claim (and the
code's own error-message example `e.g. /Common/node1:80`) says that
value is valid.  `/Common/node1:80` contains exactly one colon, so the
colon-count dispatch sends it to the host:port rule, whose class
forbids `/`, and the host-rule error is produced.  The last two
conjuncts document the dispatch: a two-colon value is judged (and here
rejected, resp. accepted) by the /Partition/... rule. -/
theorem C1_pool_member_eval :
    (validatePoolMemberName (SchemaValue.str ("1.1.1.1:80")) ("member")).2
        = [] ∧
    (validatePoolMemberName (SchemaValue.str ("/Common/node1:80")) ("member")).2
        = [GoErr.poolMemberHostErr ("member")] ∧
    countColons ("/Common/node1:80") = 1 ∧
    (validatePoolMemberName (SchemaValue.str ("1.1.1.1")) ("member")).2
        = [GoErr.poolMemberHostErr ("member")] ∧
    (validatePoolMemberName (SchemaValue.str ("/Common/node1")) ("member")).2
        = [GoErr.poolMemberHostErr ("member")] ∧
    (validatePoolMemberName (SchemaValue.str ("1:2:3")) ("member")).2
        = [GoErr.poolMemberPathErr ("member")] ∧
    (validatePoolMemberName (SchemaValue.str ("/Common/fe80::1.80")) ("member")).2
        = [] := by
  decide

/- ----------------------------------------------------------------
   Claim C4.
   ---------------------------------------------------------------- -/

/-- Claim C4 as stated is false in both directions: `" a"` does not
start with `/` but contains whitespace, yet the validator accepts it
(the regex `^[^/][^\s]+$` lets the first character be any non-slash,
whitespace included); and `"a"` satisfies the claimed rule but is
rejected (the regex demands at least two characters). -/
theorem C4_counterexample :
    (specPartitionNameOK (" a") = false ∧
      (validatePartitionName (SchemaValue.str (" a")) ("p")).2 = []) ∧
    (specPartitionNameOK ("a") = true ∧
      (validatePartitionName (SchemaValue.str ("a")) ("p")).2
        = [GoErr.partitionNameErr ("p")]) := by
  decide

/-- Claim C4 amended: for a single string the partition-name validator
accepts exactly the strings of length at least two whose first character
is not `/` and whose remaining characters contain no RE2 whitespace
(the first character itself may be whitespace). -/
theorem C4_partition_name_amended :
    ∀ (s : String) (field : String),
      (validatePartitionName (SchemaValue.str s) field).2 = [] ↔
        ∃ c rest, s.data = c :: rest ∧ c ≠ '/' ∧ rest ≠ [] ∧
          ∀ x ∈ rest, isSpaceRE2 x = false := by
  intro s field
  have hiff : partitionNameMatch s = true ↔
      (∃ c rest, s.data = c :: rest ∧ c ≠ '/' ∧ rest ≠ [] ∧
        ∀ x ∈ rest, isSpaceRE2 x = false) := by
    constructor
    · intro hm
      cases hd : s.data with
      | nil => rw [partitionNameMatch, hd] at hm; simp [partitionChars] at hm
      | cons c rest =>
          rw [partitionNameMatch, hd] at hm
          simp only [partitionChars, Bool.and_eq_true, bne_iff_ne,
            Bool.not_eq_true', List.all_eq_true] at hm
          obtain ⟨⟨hc, h0⟩, hall⟩ := hm
          refine ⟨c, rest, rfl, hc, ?_, hall⟩
          intro he
          rw [he] at h0
          exact absurd h0 (by simp)
    · rintro ⟨c, rest, hd, hc, h0, hall⟩
      rw [partitionNameMatch, hd]
      have e0 : rest.isEmpty = false := by
        cases rest with
        | nil => exact absurd rfl h0
        | cons a as => rfl
      have hall2 : rest.all (fun x => !isSpaceRE2 x) = true := by
        rw [List.all_eq_true]
        intro x hx
        simp [hall x hx]
      simp [partitionChars, bne_iff_ne, e0, hall2, hc]
  have hred : (validatePartitionName (SchemaValue.str s) field).2
      = if partitionNameMatch s then [] else [GoErr.partitionNameErr field] := by
    by_cases h : partitionNameMatch s = true <;>
      simp [validatePartitionName, normalizeValue, h]
  rw [hred, ← hiff]
  by_cases hm : partitionNameMatch s = true
  · simp [hm]
  · simp [hm]

/- ----------------------------------------------------------------
   Claim C5.
   ---------------------------------------------------------------- -/

/-- Claim C5 as stated is false: it allows `:` in the Partition segment,
but the regex class for the partition segment is `[\w_\-.]`, which has
no colon.  At `"/a:b/c"` the claimed rule accepts while the validator
errors. -/
theorem C5_counterexample :
    specF5NameOK ("/a:b/c") = true ∧
    (validateF5Name (SchemaValue.str ("/a:b/c")) ("f")).2
      = [GoErr.f5NameErr ("f")] := by
  decide

/-- Claim C5 amended: the F5 object path validator accepts a single
string exactly when it decomposes as `/Partition/Name` with both
segments non-empty, the Partition segment drawn from letters, digits
and `. _ -` (no colon), and the Name segment drawn from letters, digits
and `. _ - :`; in particular it accepts `/Common/my-pool` and rejects
`Common/my-pool` and `/Common`. -/
theorem C5_f5_name_amended :
    (∀ (s : String) (field : String),
      (validateF5Name (SchemaValue.str s) field).2 = [] ↔
        ∃ p n : List Char, s.data = '/' :: (p ++ '/' :: n) ∧ p ≠ [] ∧
          (∀ c ∈ p, c.isAlpha = true ∨ c.isDigit = true ∨ c = '.' ∨
            c = '_' ∨ c = '-') ∧ n ≠ [] ∧
          (∀ c ∈ n, c.isAlpha = true ∨ c.isDigit = true ∨ c = '.' ∨
            c = '_' ∨ c = '-' ∨ c = ':')) ∧
    (validateF5Name (SchemaValue.str ("/Common/my-pool")) ("f")).2 = [] ∧
    (validateF5Name (SchemaValue.str ("Common/my-pool")) ("f")).2 ≠ [] ∧
    (validateF5Name (SchemaValue.str ("/Common")) ("f")).2 ≠ [] := by
  refine ⟨?_, by decide, by decide, by decide⟩
  intro s field
  have hiff : f5NameMatch s = true ↔
      (∃ p n : List Char, s.data = '/' :: (p ++ '/' :: n) ∧ p ≠ [] ∧
        (∀ c ∈ p, c.isAlpha = true ∨ c.isDigit = true ∨ c = '.' ∨
          c = '_' ∨ c = '-') ∧ n ≠ [] ∧
        (∀ c ∈ n, c.isAlpha = true ∨ c.isDigit = true ∨ c = '.' ∨
          c = '_' ∨ c = '-' ∨ c = ':')) := by
    rw [f5NameMatch_iff]
    constructor
    · rintro ⟨p, n, hd, hp0, hpc, hn0, hnc⟩
      exact ⟨p, n, hd, hp0, fun c hc => (isPartChar_iff c).mp (hpc c hc), hn0,
        fun c hc => (isNameChar_iff c).mp (hnc c hc)⟩
    · rintro ⟨p, n, hd, hp0, hpc, hn0, hnc⟩
      exact ⟨p, n, hd, hp0, fun c hc => (isPartChar_iff c).mpr (hpc c hc), hn0,
        fun c hc => (isNameChar_iff c).mpr (hnc c hc)⟩
  have hred : (validateF5Name (SchemaValue.str s) field).2
      = if f5NameMatch s then [] else [GoErr.f5NameErr field] := by
    by_cases h : f5NameMatch s = true <;>
      simp [validateF5Name, normalizeValue, h]
  rw [hred, ← hiff]
  by_cases hm : f5NameMatch s = true
  · simp [hm]
  · simp [hm]

/- ----------------------------------------------------------------
   Claim C6.
   ---------------------------------------------------------------- -/

/-- Claim C6 as stated is false: the regex `(?mi)^Utility$|^regkey$`
carries the multi-line flag, so its anchors match at line boundaries,
and `"x\nregkey"` — which does not equal `Utility` or `regkey` under
case-insensitive comparison — is accepted because its second line is
`regkey`. -/
theorem C6_counterexample :
    specPoolLicenseOK ("x\nregkey") = false ∧
    (validatePoolLicenseType (SchemaValue.str ("x\nregkey")) ("f")).2 = [] := by
  decide

/-- The fold-orbit relation of a pattern character, spelt as a
proposition: the input character is the pattern character, its ASCII
uppercase, or — matching Unicode simple case folding — U+212A KELVIN
SIGN for `k` and U+017F LATIN SMALL LETTER LONG S for `s`. -/
def FoldRel (p c : Char) : Prop :=
  c = p ∨ c = Char.toUpper p ∨ (p = 'k' ∧ c = '\u212A') ∨
    (p = 's' ∧ c = '\u017F')

/-- `lineEqFold` characterised: a line matches a case-folded literal
pattern exactly when the two lists are pointwise related by the fold
orbit (in particular they have the same length). -/
theorem lineEqFold_iff (pat l : List Char) :
    lineEqFold pat l = true ↔ List.Forall₂ FoldRel pat l := by
  induction pat generalizing l with
  | nil =>
      cases l with
      | nil => simp [lineEqFold]
      | cons c cs => simp [lineEqFold]
  | cons p ps ih =>
      cases l with
      | nil => simp [lineEqFold]
      | cons c cs =>
          rw [lineEqFold, List.forall₂_cons, Bool.and_eq_true, ih]
          constructor
          · rintro ⟨h1, h2⟩
            refine ⟨?_, h2⟩
            simp only [FoldRel]
            simp only [foldCharMatch, Bool.or_eq_true, Bool.and_eq_true,
              beq_iff_eq] at h1
            tauto
          · rintro ⟨h1, h2⟩
            refine ⟨?_, h2⟩
            simp only [FoldRel] at h1
            simp only [foldCharMatch, Bool.or_eq_true, Bool.and_eq_true,
              beq_iff_eq]
            tauto

/-- Claim C6 amended: the pool license type validator accepts a single
string exactly when some newline-delimited line of it matches `utility`
or `regkey` character-by-character up to simple case folding (the ASCII
case pair, plus KELVIN SIGN for `k` and LONG S for `s`); for strings
without a newline this is the claimed case-insensitive comparison with
`Utility`/`regkey`. -/
theorem C6_pool_license_amended :
    ∀ (s : String) (field : String),
      (validatePoolLicenseType (SchemaValue.str s) field).2 = [] ↔
        ∃ l ∈ splitLines s.data,
          List.Forall₂ FoldRel (("utility").data) l ∨
          List.Forall₂ FoldRel (("regkey").data) l := by
  intro s field
  have hiff : poolLicenseMatch s = true ↔
      (∃ l ∈ splitLines s.data,
        List.Forall₂ FoldRel (("utility").data) l ∨
        List.Forall₂ FoldRel (("regkey").data) l) := by
    rw [poolLicenseMatch, List.any_eq_true]
    constructor
    · rintro ⟨l, hl, hor⟩
      refine ⟨l, hl, ?_⟩
      simpa [Bool.or_eq_true, lineEqFold_iff] using hor
    · rintro ⟨l, hl, hor⟩
      refine ⟨l, hl, ?_⟩
      simpa [Bool.or_eq_true, lineEqFold_iff] using hor
  have hred : (validatePoolLicenseType (SchemaValue.str s) field).2
      = if poolLicenseMatch s then [] else [GoErr.poolLicenseErr field] := by
    by_cases h : poolLicenseMatch s = true <;>
      simp [validatePoolLicenseType, normalizeValue, h]
  rw [hred, ← hiff]
  by_cases hm : poolLicenseMatch s = true
  · simp [hm]
  · simp [hm]

/- ----------------------------------------------------------------
   Claim C7.
   ---------------------------------------------------------------- -/

/-- Claim C7: the enabled/disabled validator accepts exactly `enabled`
and `disabled` (its regex `^enabled$|^disabled$` has both alternatives
fully anchored and no flags), appends at most one error per string, and
rejects `Enabled`, `on` and the empty string with one error each. -/
theorem C7_enabled_disabled :
    ∀ (s : String) (field : String),
      ((validateEnabledDisabled (SchemaValue.str s) field).2 = [] ↔
        (s = "enabled" ∨ s = "disabled")) ∧
      ((validateEnabledDisabled (SchemaValue.str s) field).2 = [] ∨
        (validateEnabledDisabled (SchemaValue.str s) field).2
          = [GoErr.enabledDisabledErr field]) ∧
      (validateEnabledDisabled (SchemaValue.str ("Enabled")) field).2
        = [GoErr.enabledDisabledErr field] ∧
      (validateEnabledDisabled (SchemaValue.str ("on")) field).2
        = [GoErr.enabledDisabledErr field] ∧
      (validateEnabledDisabled (SchemaValue.str ("")) field).2
        = [GoErr.enabledDisabledErr field] := by
  intro s field
  have hred : ∀ t : String, (validateEnabledDisabled (SchemaValue.str t) field).2
      = if enabledDisabledMatch t then [] else [GoErr.enabledDisabledErr field] := by
    intro t
    by_cases h : enabledDisabledMatch t = true <;>
      simp [validateEnabledDisabled, normalizeValue, h]
  refine ⟨?_, ?_, ?_, ?_, ?_⟩
  · rw [hred]
    by_cases hm : enabledDisabledMatch s = true
    · have hor : s = "enabled" ∨ s = "disabled" := by
        simpa [enabledDisabledMatch, Bool.or_eq_true, beq_iff_eq] using hm
      simp [hm, hor]
    · have hor : ¬(s = "enabled" ∨ s = "disabled") := by
        intro hor
        apply hm
        simp only [enabledDisabledMatch, Bool.or_eq_true, beq_iff_eq]
        tauto
      simp [hm, hor]
  · rw [hred]
    by_cases hm : enabledDisabledMatch s = true <;> simp [hm]
  · rw [hred]; rfl
  · rw [hred]; rfl
  · rw [hred]; rfl

/- ----------------------------------------------------------------
   Claim C8.
   ---------------------------------------------------------------- -/

/-- Cardinality form of the set-membership test used by
`validateSetValues`: the intersection with the allowed set has as many
elements as the input exactly when the input is a subset of the allowed
set. -/
theorem card_inter_eq_iff_subset (valid input : Finset String) :
    (valid ∩ input).card = input.card ↔ input ⊆ valid := by
  constructor
  · intro h
    have hsub : valid ∩ input ⊆ input := Finset.inter_subset_right
    have heq : valid ∩ input = input :=
      Finset.eq_of_subset_of_card_le hsub (le_of_eq h.symm)
    exact Finset.inter_eq_right.mp heq
  · intro h
    rw [Finset.inter_eq_right.mpr h]

/-- Claim C8: the set-membership validator returns no warnings, and
exactly one error — naming the field and listing the input set — exactly
when some element of the input set lies outside the allowed set; with
allowed set `{a, b}` and input set `{a, c}` it returns `([], [that
error])`, and the listed elements are `a` and `c`. -/
theorem C8_set_membership :
    (∀ (valid input : Finset String) (field : String),
      validateSetValues valid input field =
        ([], if input ⊆ valid then []
             else [GoErr.canOnlyContain field (setToStringSlice input)])) ∧
    validateSetValues ({"a", "b"} : Finset String)
        ({"a", "c"} : Finset String) ("fld")
      = ([], [GoErr.canOnlyContain ("fld") (["a", "c"])]) := by
  have hgen : ∀ (valid input : Finset String) (field : String),
      validateSetValues valid input field =
        ([], if input ⊆ valid then []
             else [GoErr.canOnlyContain field (setToStringSlice input)]) := by
    intro valid input field
    rw [validateSetValues]
    by_cases h : input ⊆ valid
    · have hc : (valid ∩ input).card = input.card :=
        (card_inter_eq_iff_subset valid input).mpr h
      simp [h, hc]
    · have hc : (valid ∩ input).card ≠ input.card :=
        fun he => h ((card_inter_eq_iff_subset valid input).mp he)
      simp [h, bne_iff_ne, hc]
  refine ⟨hgen, ?_⟩
  rw [hgen]
  have hns : ¬ (({"a", "c"} : Finset String) ⊆ ({"a", "b"} : Finset String)) := by
    decide
  have hsort : setToStringSlice ({"a", "c"} : Finset String) = ["a", "c"] := by
    unfold setToStringSlice
    rw [Finset.sort_insert]
    · rw [Finset.sort_singleton]
    · intro b hb
      simp only [Finset.mem_singleton] at hb
      subst hb
      apply le_of_lt
      rw [String.lt_iff_toList_lt]
      decide
    · decide
  rw [if_neg hns, hsort]

/- ----------------------------------------------------------------
   Claim C9.
   ---------------------------------------------------------------- -/

/-- Claim C9: every field validator is deterministic and idempotent —
repeating a validation on the same input produces the identical
(warnings, errors) pair.  In this embedding each validator is a pure
function of its arguments; this is faithful to the source, where the
validators read no mutable state (they consult only their arguments and
fixed patterns), so repeated runs return equal results. -/
theorem C9_validators_deterministic :
    ∀ (v : SchemaValue) (field : String) (values : List String)
      (s : String) (valid input : Finset String),
      validateSetValues valid input field = validateSetValues valid input field ∧
      validateStringValue values s field = validateStringValue values s field ∧
      validateF5Name v field = validateF5Name v field ∧
      validateF5NameWithDirectory v field = validateF5NameWithDirectory v field ∧
      validatePartitionName v field = validatePartitionName v field ∧
      validatePoolMemberName v field = validatePoolMemberName v field ∧
      validateEnabledDisabled v field = validateEnabledDisabled v field ∧
      validateReqPrefDisabled v field = validateReqPrefDisabled v field ∧
      validateDataGroupType v field = validateDataGroupType v field ∧
      validatePoolLicenseType v field = validatePoolLicenseType v field ∧
      validateAssignmentType v field = validateAssignmentType v field :=
  fun _ _ _ _ _ _ =>
    ⟨rfl, rfl, rfl, rfl, rfl, rfl, rfl, rfl, rfl, rfl, rfl⟩

/- ----------------------------------------------------------------
   Claims C2, C3, C10 (the session factory).
   ---------------------------------------------------------------- -/

/-- Claim C3: with address, username or password empty, `Client` returns
a nil handle and the configuration error immediately — the trace shows
no external call (token login, session construction or liveness check)
and no warning. -/
theorem C3_missing_fields (c : Config) (dev : BigIPDevice)
    (h : c.Address = "" ∨ c.Username = "" ∨ c.Password = "") :
    c.Client dev = ⟨none, some GoErr.missingRequiredFields, [], []⟩ := by
  rw [Config.Client]
  rcases h with h | h | h <;> simp [h]

/-- Witness for C3 at a concrete configuration with an empty address. -/
theorem C3_missing_fields_witness :
    Config.Client ⟨(""), ("443"), ("admin"), ("pw"), (""), none⟩
        ⟨Except.ok 7, 7, Except.ok none⟩
      = ⟨none, some GoErr.missingRequiredFields, [], []⟩ :=
  C3_missing_fields _ _ (Or.inl rfl)

/-- Claim C2: once the required-field check passes and a session handle
is obtained (no login reference, or token login succeeded), the
liveness check is a trichotomy on the outcome of the self-IP request:
an error is returned with no handle; a nil result returns the handle
with no error and logs the warning; a non-nil result returns the handle
with no error and no warning. -/
theorem C2_liveness_trichotomy (c : Config) (dev : BigIPDevice)
    (ha : c.Address ≠ "") (hu : c.Username ≠ "") (hp : c.Password ≠ "")
    (hsess : c.LoginReference = "" ∨ ∃ h, dev.tokenSession = Except.ok h) :
    (∀ e, dev.selfIPs = Except.error e →
      (c.Client dev).handle = none ∧ (c.Client dev).error = some e ∧
      (c.Client dev).warnings = []) ∧
    (dev.selfIPs = Except.ok none →
      (c.Client dev).handle.isSome = true ∧ (c.Client dev).error = none ∧
      (c.Client dev).warnings = [warnCouldNotValidate]) ∧
    (∀ l, dev.selfIPs = Except.ok (some l) →
      (c.Client dev).handle.isSome = true ∧ (c.Client dev).error = none ∧
      (c.Client dev).warnings = []) := by
  have h1 : (c.Address != "" && c.Username != "" && c.Password != "") = true := by
    simp [bne_iff_ne, ha, hu, hp]
  rcases hsess with hlr | ⟨hcl, htok⟩
  · have h2 : (c.LoginReference != "") = false := by simp [hlr]
    refine ⟨?_, ?_, ?_⟩
    · intro e he
      simp [Config.Client, validateConnection, h1, h2, he]
    · intro he
      simp [Config.Client, validateConnection, h1, h2, he]
    · intro l hl
      simp [Config.Client, validateConnection, h1, h2, hl]
  · by_cases hlr : c.LoginReference = ""
    · have h2 : (c.LoginReference != "") = false := by simp [hlr]
      refine ⟨?_, ?_, ?_⟩
      · intro e he
        simp [Config.Client, validateConnection, h1, h2, he]
      · intro he
        simp [Config.Client, validateConnection, h1, h2, he]
      · intro l hl
        simp [Config.Client, validateConnection, h1, h2, hl]
    · have h2 : (c.LoginReference != "") = true := by simp [bne_iff_ne, hlr]
      refine ⟨?_, ?_, ?_⟩
      · intro e he
        simp [Config.Client, validateConnection, h1, h2, htok, he]
      · intro he
        simp [Config.Client, validateConnection, h1, h2, htok, he]
      · intro l hl
        simp [Config.Client, validateConnection, h1, h2, htok, hl]

/-- Witness for C2 at a concrete configuration (basic session) whose
self-IP request succeeds with a nil result: the handle is returned, the
error is nil, and the warning is logged. -/
theorem C2_liveness_trichotomy_witness :
    (Config.Client ⟨("10.1.1.1"), ("443"), ("admin"), ("pw"), (""), none⟩
        ⟨Except.ok 7, 7, Except.ok none⟩).handle.isSome = true ∧
    (Config.Client ⟨("10.1.1.1"), ("443"), ("admin"), ("pw"), (""), none⟩
        ⟨Except.ok 7, 7, Except.ok none⟩).error = none ∧
    (Config.Client ⟨("10.1.1.1"), ("443"), ("admin"), ("pw"), (""), none⟩
        ⟨Except.ok 7, 7, Except.ok none⟩).warnings = [warnCouldNotValidate] :=
  (C2_liveness_trichotomy
      ⟨("10.1.1.1"), ("443"), ("admin"), ("pw"), (""), none⟩
      ⟨Except.ok 7, 7, Except.ok none⟩
      (by decide) (by decide) (by decide) (Or.inl rfl)).2.1 rfl

/-- Claim C10 (implicit): whatever the configuration and the outcomes of
the external calls, `Client` returns exactly one of a handle or an
error: the handle is non-nil precisely when the error is nil. -/
theorem C10_handle_xor_error (c : Config) (dev : BigIPDevice) :
    (c.Client dev).handle.isSome = true ↔ (c.Client dev).error = none := by
  rw [Config.Client, validateConnection]
  by_cases h1 : (c.Address != "" && c.Username != "" && c.Password != "") = true
  · rw [if_pos h1]
    by_cases h2 : (c.LoginReference != "") = true
    · rw [if_pos h2]
      cases htok : dev.tokenSession with
      | error e => simp
      | ok cl =>
          cases hsip : dev.selfIPs with
          | error e => simp
          | ok o => cases o <;> simp
    · rw [if_neg h2]
      cases hsip : dev.selfIPs with
      | error e => simp
      | ok o => cases o <;> simp
  · rw [if_neg h1]
    simp

end BigIPPG
